import Mathlib

/-!
Shallow embedding of `src/zkevm-circuits/src/witness/rw.rs` (the Read-Write
table witness subsystem): the `Rw` access-record union, the `RwMap` trace
container with its canonical ordering, padding and lookup operations, the
consistency checker `check_value`, the counter-sanity checker
`check_rw_counter_sanity`, the row encoder `RwRow` with its RLC digest, and
the memory arm of the `From<&OperationContainer>` trace-builder conversion.

Machine integers (`usize`, `u64`, `u8`, `U256` words, `Address`) are embedded
as `Nat`; where a claim depends on a machine bound it appears as an explicit
hypothesis or an explicit `% 2 ^ w`.  Rust panics are embedded as `none` /
`Except.error`.  Types defined outside `src/` (the field-tag enumerations from
`crate::table`, `Target` and `OperationRef` from `bus_mapping`, the 128-bit
limb split from `util::word`, and the `MptUpdates` initial-value oracle) are
modelled from the spec, each marked `Modelled from the spec:` in its doc
comment.
-/

/-- Modelled from the spec: `AccountFieldTag` lives in `crate::table`, outside
`src/`; only its ordinal (`field_tag as u64`) is observable here, embedded as
a 1-based enumeration. -/
inductive AccountFieldTag
  | Nonce
  | Balance
  | CodeHash
deriving DecidableEq, Repr

/-- Ordinal of an `AccountFieldTag`, as used by `field_tag as u64`. -/
def AccountFieldTag.toNat : AccountFieldTag → Nat
  | .Nonce => 1
  | .Balance => 2
  | .CodeHash => 3

/-- Modelled from the spec: `CallContextFieldTag` lives in `crate::table`,
outside `src/`; only its ordinal is observable here. -/
inductive CallContextFieldTag
  | RwCounterEndOfReversion
  | CallerId
  | TxId
  | Depth
  | CallerAddress
  | CalleeAddress
  | CallDataOffset
  | CallDataLength
  | ReturnDataOffset
  | ReturnDataLength
  | Value
  | IsSuccess
  | IsPersistent
  | IsStatic
  | LastCalleeId
  | LastCalleeReturnDataOffset
  | LastCalleeReturnDataLength
  | IsRoot
  | IsCreate
  | CodeHash
  | ProgramCounter
  | StackPointer
  | GasLeft
  | MemorySize
  | ReversibleWriteCounter
deriving DecidableEq, Repr

/-- Ordinal of a `CallContextFieldTag`, as used by `field_tag as u64`. -/
def CallContextFieldTag.toNat : CallContextFieldTag → Nat
  | .RwCounterEndOfReversion => 1
  | .CallerId => 2
  | .TxId => 3
  | .Depth => 4
  | .CallerAddress => 5
  | .CalleeAddress => 6
  | .CallDataOffset => 7
  | .CallDataLength => 8
  | .ReturnDataOffset => 9
  | .ReturnDataLength => 10
  | .Value => 11
  | .IsSuccess => 12
  | .IsPersistent => 13
  | .IsStatic => 14
  | .LastCalleeId => 15
  | .LastCalleeReturnDataOffset => 16
  | .LastCalleeReturnDataLength => 17
  | .IsRoot => 18
  | .IsCreate => 19
  | .CodeHash => 20
  | .ProgramCounter => 21
  | .StackPointer => 22
  | .GasLeft => 23
  | .MemorySize => 24
  | .ReversibleWriteCounter => 25

/-- Modelled from the spec: `TxLogFieldTag` lives in `crate::table`, outside
`src/`. -/
inductive TxLogFieldTag
  | Address
  | Topic
  | Data
deriving DecidableEq, Repr

/-- Ordinal of a `TxLogFieldTag`. -/
def TxLogFieldTag.toNat : TxLogFieldTag → Nat
  | .Address => 1
  | .Topic => 2
  | .Data => 3

/-- Modelled from the spec: `TxReceiptFieldTag` lives in `crate::table`,
outside `src/`. -/
inductive TxReceiptFieldTag
  | PostStateOrStatus
  | LogLength
  | CumulativeGasUsed
deriving DecidableEq, Repr

/-- Ordinal of a `TxReceiptFieldTag`. -/
def TxReceiptFieldTag.toNat : TxReceiptFieldTag → Nat
  | .PostStateOrStatus => 1
  | .LogLength => 2
  | .CumulativeGasUsed => 3

/-- Modelled from the spec: the resource-tag enumeration `Target` lives in
`bus_mapping::operation`, outside `src/`.  Its ordinal (`tag as u64`) is the
primary canonical sort key; `Start` has the smallest ordinal so `Start`
records always sort first. -/
inductive Target
  | Start
  | Memory
  | Stack
  | Storage
  | TxAccessListAccount
  | TxAccessListAccountStorage
  | TxRefund
  | Account
  | CallContext
  | TxReceipt
  | TxLog
deriving DecidableEq, Repr, Fintype

/-- Ordinal of a `Target`, as used by `row.tag() as u64` (1-based, `Start`
smallest). -/
def Target.toNat : Target → Nat
  | .Start => 1
  | .Memory => 2
  | .Stack => 3
  | .Storage => 4
  | .TxAccessListAccount => 5
  | .TxAccessListAccountStorage => 6
  | .TxRefund => 7
  | .Account => 8
  | .CallContext => 9
  | .TxReceipt => 10
  | .TxLog => 11

/-- The list of all resource tags (the key space of the `HashMap` of groups).
The order here is immaterial: every consumer either filters by tag or
re-sorts. -/
def allTargets : List Target :=
  [.Start, .Memory, .Stack, .Storage, .TxAccessListAccount,
   .TxAccessListAccountStorage, .TxRefund, .Account, .CallContext,
   .TxReceipt, .TxLog]

/-- Modelled from the spec: `util::build_tx_log_address` (outside `src/`)
packs `(index, field_tag, log_id)` into a single synthetic address so that
log rows of one transaction group under one address key.  The packing places
`field_tag` in a 16-bit limb above the 32-bit `index`, with `log_id` above
that, reduced to the 160-bit address range. -/
def build_tx_log_address (index : Nat) (field_tag : TxLogFieldTag) (log_id : Nat) : Nat :=
  (index % 2 ^ 32 + field_tag.toNat * 2 ^ 32 + log_id * 2 ^ 48) % 2 ^ 160

/-- The access-record union `Rw` of `witness/rw.rs` (lines 162-259), one
constructor per resource kind.  `usize`/`u64`/`u8` fields and 256-bit words
and 160-bit addresses are embedded as `Nat`. -/
inductive Rw
  | Start (rw_counter : Nat)
  | TxAccessListAccount (rw_counter : Nat) ( is_write : Bool) (tx_id : Nat)
      (account_address : Nat) (is_warm : Bool) (is_warm_prev : Bool)
  | TxAccessListAccountStorage (rw_counter : Nat) ( is_write : Bool) (tx_id : Nat)
      (account_address : Nat) (storage_key : Nat) (is_warm : Bool) (is_warm_prev : Bool)
  | TxRefund (rw_counter : Nat) ( is_write : Bool) (tx_id : Nat)
      (value : Nat) (value_prev : Nat)
  | Account (rw_counter : Nat) ( is_write : Bool) (account_address : Nat)
      (field_tag : AccountFieldTag) (value : Nat) (value_prev : Nat)
  | AccountStorage (rw_counter : Nat) ( is_write : Bool) (account_address : Nat)
      (storage_key : Nat) (value : Nat) (value_prev : Nat) (tx_id : Nat)
      (committed_value : Nat)
  | CallContext (rw_counter : Nat) ( is_write : Bool) (call_id : Nat)
      (field_tag : CallContextFieldTag) (value : Nat)
  | Stack (rw_counter : Nat) ( is_write : Bool) (call_id : Nat)
      (stack_pointer : Nat) (value : Nat)
  | Memory (rw_counter : Nat) ( is_write : Bool) (call_id : Nat)
      (memory_address : Nat) (byte : Nat)
  | TxLog (rw_counter : Nat) ( is_write : Bool) (tx_id : Nat) (log_id : Nat)
      (field_tag : TxLogFieldTag) (index : Nat) (value : Nat)
  | TxReceipt (rw_counter : Nat) ( is_write : Bool) (tx_id : Nat)
      (field_tag : TxReceiptFieldTag) (value : Nat)
deriving DecidableEq, Repr

namespace Rw

/-- `Rw::rw_counter` (lines 474-488). -/
def rw_counter : Rw → Nat
  | .Start rwc => rwc
  | .TxAccessListAccount rwc _ _ _ _ _ => rwc
  | .TxAccessListAccountStorage rwc _ _ _ _ _ _ => rwc
  | .TxRefund rwc _ _ _ _ => rwc
  | .Account rwc _ _ _ _ _ => rwc
  | .AccountStorage rwc _ _ _ _ _ _ _ => rwc
  | .CallContext rwc _ _ _ _ => rwc
  | .Stack rwc _ _ _ _ => rwc
  | .Memory rwc _ _ _ _ => rwc
  | .TxLog rwc _ _ _ _ _ _ => rwc
  | .TxReceipt rwc _ _ _ _ => rwc

/-- `Rw::is_write` (lines 490-504); `Start` is never a write. -/
def is_write : Rw → Bool
  | .Start _ => false
  | .TxAccessListAccount _ w _ _ _ _ => w
  | .TxAccessListAccountStorage _ w _ _ _ _ _ => w
  | .TxRefund _ w _ _ _ => w
  | .Account _ w _ _ _ _ => w
  | .AccountStorage _ w _ _ _ _ _ _ => w
  | .CallContext _ w _ _ _ => w
  | .Stack _ w _ _ _ => w
  | .Memory _ w _ _ _ => w
  | .TxLog _ w _ _ _ _ _ => w
  | .TxReceipt _ w _ _ _ => w

/-- `Rw::tag` (lines 506-520). -/
def tag : Rw → Target
  | .Start _ => .Start
  | .Memory _ _ _ _ _ => .Memory
  | .Stack _ _ _ _ _ => .Stack
  | .AccountStorage _ _ _ _ _ _ _ _ => .Storage
  | .TxAccessListAccount _ _ _ _ _ _ => .TxAccessListAccount
  | .TxAccessListAccountStorage _ _ _ _ _ _ _ => .TxAccessListAccountStorage
  | .TxRefund _ _ _ _ _ => .TxRefund
  | .Account _ _ _ _ _ _ => .Account
  | .CallContext _ _ _ _ _ => .CallContext
  | .TxLog _ _ _ _ _ _ _ => .TxLog
  | .TxReceipt _ _ _ _ _ => .TxReceipt

/-- `Rw::id` (lines 522-535): transaction id or call id, `None` for `Start`
and `Account`. -/
def id : Rw → Option Nat
  | .AccountStorage _ _ _ _ _ _ tx_id _ => some tx_id
  | .TxAccessListAccount _ _ tx_id _ _ _ => some tx_id
  | .TxAccessListAccountStorage _ _ tx_id _ _ _ _ => some tx_id
  | .TxRefund _ _ tx_id _ _ => some tx_id
  | .TxLog _ _ tx_id _ _ _ _ => some tx_id
  | .TxReceipt _ _ tx_id _ _ => some tx_id
  | .CallContext _ _ call_id _ _ => some call_id
  | .Stack _ _ call_id _ _ => some call_id
  | .Memory _ _ call_id _ _ => some call_id
  | .Start _ => none
  | .Account _ _ _ _ _ _ => none

/-- `Rw::address` (lines 537-569).  `Memory` and `Stack` synthesize an address
from the numeric offset/pointer (a `u64`/`usize`, hence already inside the
160-bit address range); `TxLog` packs `(index, field_tag, log_id)`. -/
def address : Rw → Option Nat
  | .TxAccessListAccount _ _ _ a _ _ => some a
  | .TxAccessListAccountStorage _ _ _ a _ _ _ => some a
  | .Account _ _ a _ _ _ => some a
  | .AccountStorage _ _ a _ _ _ _ _ => some a
  | .Memory _ _ _ memory_address _ => some memory_address
  | .Stack _ _ _ stack_pointer _ => some stack_pointer
  | .TxLog _ _ _ log_id field_tag index _ => some (build_tx_log_address index field_tag log_id)
  | .Start _ => none
  | .CallContext _ _ _ _ _ => none
  | .TxRefund _ _ _ _ _ => none
  | .TxReceipt _ _ _ _ _ => none

/-- `Rw::field_tag` (lines 571-585), as the `u64` ordinal. -/
def field_tag : Rw → Option Nat
  | .Account _ _ _ ft _ _ => some ft.toNat
  | .CallContext _ _ _ ft _ => some ft.toNat
  | .TxReceipt _ _ _ ft _ => some ft.toNat
  | .Start _ => none
  | .Memory _ _ _ _ _ => none
  | .Stack _ _ _ _ _ => none
  | .AccountStorage _ _ _ _ _ _ _ _ => none
  | .TxAccessListAccount _ _ _ _ _ _ => none
  | .TxAccessListAccountStorage _ _ _ _ _ _ _ => none
  | .TxRefund _ _ _ _ _ => none
  | .TxLog _ _ _ _ _ _ _ => none

/-- `Rw::storage_key` (lines 587-601). -/
def storage_key : Rw → Option Nat
  | .AccountStorage _ _ _ sk _ _ _ _ => some sk
  | .TxAccessListAccountStorage _ _ _ _ sk _ _ => some sk
  | .Start _ => none
  | .CallContext _ _ _ _ _ => none
  | .Stack _ _ _ _ _ => none
  | .Memory _ _ _ _ _ => none
  | .TxRefund _ _ _ _ _ => none
  | .Account _ _ _ _ _ _ => none
  | .TxAccessListAccount _ _ _ _ _ _ => none
  | .TxLog _ _ _ _ _ _ _ => none
  | .TxReceipt _ _ _ _ _ => none

/-- `Rw::value_assignment` (lines 603-616): the current value as a 256-bit
word; warm flags become 0/1, a memory byte its numeric value. -/
def value_assignment : Rw → Nat
  | .Start _ => 0
  | .CallContext _ _ _ _ v => v
  | .Account _ _ _ _ v _ => v
  | .AccountStorage _ _ _ _ v _ _ _ => v
  | .Stack _ _ _ _ v => v
  | .TxLog _ _ _ _ _ _ v => v
  | .TxAccessListAccount _ _ _ _ is_warm _ => if is_warm then 1 else 0
  | .TxAccessListAccountStorage _ _ _ _ _ is_warm _ => if is_warm then 1 else 0
  | .Memory _ _ _ _ byte => byte
  | .TxRefund _ _ _ v _ => v
  | .TxReceipt _ _ _ _ v => v

/-- `Rw::value_prev_assignment` (lines 618-635): `None` for variants without
a defined write history. -/
def value_prev_assignment : Rw → Option Nat
  | .Account _ _ _ _ _ vp => some vp
  | .AccountStorage _ _ _ _ _ vp _ _ => some vp
  | .TxAccessListAccount _ _ _ _ _ is_warm_prev => some (if is_warm_prev then 1 else 0)
  | .TxAccessListAccountStorage _ _ _ _ _ _ is_warm_prev => some (if is_warm_prev then 1 else 0)
  | .TxRefund _ _ _ _ vp => some vp
  | .Start _ => none
  | .Stack _ _ _ _ _ => none
  | .Memory _ _ _ _ _ => none
  | .CallContext _ _ _ _ _ => none
  | .TxLog _ _ _ _ _ _ _ => none
  | .TxReceipt _ _ _ _ _ => none

/-- `Rw::committed_value_assignment` (lines 637-644). -/
def committed_value_assignment : Rw → Option Nat
  | .AccountStorage _ _ _ _ _ _ _ cv => some cv
  | _ => none

end Rw

/-- The trace container `RwMap` (line 21): a `HashMap<Target, Vec<Rw>>`,
embedded as a function from the (finite, decidable) key space to an optional
group; `none` means the key is absent from the map. -/
structure RwMap where
  groups : Target → Option (List Rw)

/-- The two distinct panic classes of indexing an `RwMap` (lines 23-37):
`.unwrapNone` is the `Option::unwrap` panic when the tag key is absent from
the `HashMap`; `.outOfRange` is the slice-indexing panic when the group is
shorter than `idx + 1`. -/
inductive LookupErr
  | unwrapNone
  | outOfRange
deriving DecidableEq, Repr

/-- `impl Index<(Target, usize)> for RwMap` (lines 23-29):
`self.0.get(&tag).unwrap()[idx]`, with both panic classes made explicit. -/
def rwmap_index (m : RwMap) (tag : Target) (idx : Nat) : Except LookupErr Rw :=
  match m.groups tag with
  | none => .error .unwrapNone
  | some g =>
    match g[idx]? with
    | some r => .ok r
    | none => .error .outOfRange

/-- Modelled from the spec: `OperationRef` (from `bus_mapping::exec_trace`,
outside `src/`) is the pair `(Target, usize)` recorded when the external
operation system stored the operation. -/
structure OperationRef where
  tag : Target
  idx : Nat
deriving DecidableEq, Repr

/-- `impl Index<OperationRef> for RwMap` (lines 31-37): destructures the
reference and performs the same `self.0.get(&tag).unwrap()[idx]` access. -/
def rwmap_index_ref (m : RwMap) (r : OperationRef) : Except LookupErr Rw :=
  rwmap_index m r.tag r.idx

/-- Lexicographic order on `List Nat`, used to embed Rust's derived
lexicographic `Ord` on the sort-key tuples of `table_assignments`. -/
def lexLe : List Nat → List Nat → Bool
  | [], _ => true
  | _ :: _, [] => false
  | x :: xs, y :: ys => if x < y then true else if y < x then false else lexLe xs ys

/-- The composite sort key of `table_assignments` (lines 141-150):
`(tag as u64, id-or-0, address-or-0, field_tag-or-0, storage_key-or-0,
rw_counter)`, embedded as a list compared lexicographically (Rust tuple `Ord`
is lexicographic). -/
def Rw.sortKey (r : Rw) : List Nat :=
  [r.tag.toNat, r.id.getD 0, r.address.getD 0, r.field_tag.getD 0,
   r.storage_key.getD 0, r.rw_counter]

/-- All records of the container, groups flattened
(`self.0.values().flatten()`, line 140).  The `HashMap` yields its groups in
an arbitrary order; the fixed enumeration `allTargets` stands in for one such
order (the order-insensitivity of the result is exactly what claim C2 is
about). -/
def RwMap.flat_rows (m : RwMap) : List Rw :=
  allTargets.flatMap fun t => (m.groups t).getD []

/-- The sort order of `table_assignments`: composite keys compared
lexicographically. -/
def rwLe (a b : Rw) : Prop := lexLe a.sortKey b.sortKey = true

instance : DecidableRel rwLe := fun a b => instDecidableEqBool (lexLe a.sortKey b.sortKey) true

/-- `RwMap::table_assignments` (lines 139-152): flatten all groups and sort
by the composite key.  Rust's `sort_by_key` is a stable sort; it is embedded
as a stable insertion sort, which produces the identical output (the result
of a stable sort under a total preorder is unique). -/
def RwMap.table_assignments (m : RwMap) : List Rw :=
  List.insertionSort rwLe m.flat_rows

/-- `RwMap::padding_len` (lines 113-125): number of `Start` rows to prepad.
The `panic!` on `0 < target_len <= rows_len` is embedded as `none`. -/
def padding_len (rows_len target_len : Nat) : Option Nat :=
  if target_len > rows_len then
    some (target_len - rows_len)
  else
    if target_len ≠ 0 then
      none
    else
      some 1

/-- Whether a record is a `Start` record (`matches!(rw, Rw::Start { .. })`). -/
def Rw.isStart : Rw → Bool
  | .Start _ => true
  | _ => false

/-- `RwMap::table_assignments_prepad` (lines 127-137): strip leading `Start`
rows, compute the padding length, and prepend freshly numbered `Start` rows
with counters `1..=padding_length`.  A `padding_len` panic propagates as
`none`. -/
def table_assignments_prepad (rows : List Rw) (target_len : Nat) :
    Option (List Rw × Nat) :=
  let rows := rows.dropWhile Rw.isStart
  match padding_len rows.length target_len with
  | none => none
  | some padding_length =>
    some ((List.range' 1 padding_length).map Rw.Start ++ rows, padding_length)

/-- The `enumerate`d `debug_assert_eq!(idx, rw_counter - 1)` loop of
`check_rw_counter_sanity`, as a boolean recursion over the sorted counters:
in a debug build `rw_counter - 1` underflows (panics) when `rw_counter = 0`,
so the assertion passes only when `1 ≤ c` and `i = c - 1`. -/
def countersOk : Nat → List Nat → Bool
  | _, [] => true
  | i, c :: cs => (decide (1 ≤ c) && decide (i = c - 1)) && countersOk (i + 1) cs

/-- The counters checked by `check_rw_counter_sanity`: every record stored
under a non-`Start` tag key, mapped to its `rw_counter` (lines 42-47). -/
def RwMap.nonStartCounters (m : RwMap) : List Nat :=
  (allTargets.filter fun t => t ≠ Target.Start).flatMap fun t =>
    ((m.groups t).getD []).map Rw.rw_counter

/-- `RwMap::check_rw_counter_sanity` (lines 41-53): sort the non-`Start`
counters (`itertools::sorted`, embedded as a stable insertion sort),
enumerate from 0, and assert `idx == rw_counter - 1` for each; `true` means
every debug assertion passes. -/
def RwMap.check_rw_counter_sanity (m : RwMap) : Bool :=
  countersOk 0 (List.insertionSort (· ≤ ·) m.nonStartCounters)

/-- The two violation reasons of `check_value` (lines 56-57), standing for
the strings `err_msg_first` and `err_msg_non_first`. -/
inductive RwCheckErr
  | firstAccess
  | nonFirstAccess
deriving DecidableEq, Repr

/-- The 5-tuple canonical key of the `key` closure inside `check_value`
(lines 65-73): the sort key without the counter. -/
def Rw.rwKey (r : Rw) : List Nat :=
  [r.tag.toNat, r.id.getD 0, r.address.getD 0, r.field_tag.getD 0,
   r.storage_key.getD 0]

/-- The `for idx in 1..rows.len()` loop body of `check_value` (lines 61-96),
walking adjacent pairs `(prev_row, row)` with `idx` the position of `row`,
collecting `(idx, reason, row, prev_row)` violations in order.  `oracle` is
the initial-value oracle (see `check_value`). -/
def checkPairs (oracle : Rw → Option Nat) :
    Nat → Rw → List Rw → List (Nat × RwCheckErr × Rw × Rw)
  | _, _, [] => []
  | idx, prev_row, row :: rest =>
    (if row.is_write then []
     else
       if prev_row.rwKey ≠ row.rwKey then
         if row.value_assignment ≠ (oracle row).getD 0 then
           [(idx, .firstAccess, row, prev_row)]
         else []
       else
         if row.value_assignment ≠ prev_row.value_assignment then
           [(idx, .nonFirstAccess, row, prev_row)]
         else []) ++ checkPairs oracle (idx + 1) row rest

/-- `RwMap::check_value` (lines 55-109).  The initial-value oracle is
modelled from the spec: `MptUpdates::mock_from` lives outside `src/`, so the
map `updates.get(row).map(|u| u.value_assignments().1)` is abstracted as a
function `oracle : Rw → Option Nat`; as in the source, an absent entry
defaults to 0 (`unwrap_or_default`).  Violations are collected and returned
(the source logs them); the checker never aborts. -/
def RwMap.check_value (oracle : Rw → Option Nat) (m : RwMap) :
    List (Nat × RwCheckErr × Rw × Rw) :=
  match m.table_assignments with
  | [] => []
  | first :: rest => checkPairs oracle 1 first rest

/-- Modelled from the spec: `util::word::Word` (outside `src/`) splits a
256-bit quantity into a low 128-bit limb; this is `V % 2^128`. -/
def wordLo (v : Nat) : Nat := v % 2 ^ 128

/-- Modelled from the spec: the high 128-bit limb of the `util::word::Word`
split; this is `V / 2^128`. -/
def wordHi (v : Nat) : Nat := v / 2 ^ 128

/-- The row encoding `RwRow` (lines 262-274), with each `word::Word` already
split into its low/high limbs.  The entries are field elements; they are
embedded at the type `F` of the surrounding development (for
`Rw::table_assignment` at `Nat`, faithful because every entry is below the
proving field's modulus: limbs are below `2^128`, addresses below `2^160`). -/
structure RwRow (F : Type) where
  rw_counter : F
  is_write : F
  tag : F
  id : F
  address : F
  field_tag : F
  storage_key_lo : F
  storage_key_hi : F
  value_lo : F
  value_hi : F
  value_prev_lo : F
  value_prev_hi : F
  init_val_lo : F
  init_val_hi : F
deriving DecidableEq, Repr

/-- `RwRow::values` (lines 277-294): the fixed 14-element projection, in
source order. -/
def RwRow.values {F : Type} (r : RwRow F) : List F :=
  [r.rw_counter, r.is_write, r.tag, r.id, r.address, r.field_tag,
   r.storage_key_lo, r.storage_key_hi, r.value_lo, r.value_hi,
   r.value_prev_lo, r.value_prev_hi, r.init_val_lo, r.init_val_hi]

/-- `RwRow::rlc` (lines 296-302): fold the 14 values right-to-left as
`acc = acc * randomness + value`, seeded at `F::ZERO`
(`values.iter().rev().fold(F::ZERO, ...)`). -/
def RwRow.rlc {F : Type} [CommRing F] (r : RwRow F) (randomness : F) : F :=
  r.values.reverse.foldl (fun acc value => acc * randomness + value) 0

/-- `Rw::table_assignment` (lines 457-472): the total projection of an access
record to a row; absent optional fields default to zero
(`unwrap_or_default`), and each word is split into limbs. -/
def Rw.table_assignment (r : Rw) : RwRow Nat :=
  { rw_counter := r.rw_counter
    is_write := if r.is_write then 1 else 0
    tag := r.tag.toNat
    id := r.id.getD 0
    address := r.address.getD 0
    field_tag := r.field_tag.getD 0
    storage_key_lo := wordLo (r.storage_key.getD 0)
    storage_key_hi := wordHi (r.storage_key.getD 0)
    value_lo := wordLo r.value_assignment
    value_hi := wordHi r.value_assignment
    value_prev_lo := wordLo (r.value_prev_assignment.getD 0)
    value_prev_hi := wordHi (r.value_prev_assignment.getD 0)
    init_val_lo := wordLo (r.committed_value_assignment.getD 0)
    init_val_hi := wordHi (r.committed_value_assignment.getD 0) }

/-- Modelled from the spec: the external memory operation consumed by the
trace builder (`bus_mapping`, outside `src/`): an assigned counter, a
read/write flag, a call id, a numeric memory offset (a word-sized quantity
whose little-endian bytes the conversion slices), and a byte value. -/
structure MemoryOp where
  rwc : Nat
  rw_is_write : Bool
  call_id : Nat
  address : Nat
  value : Nat
deriving DecidableEq, Repr

/-- Little-endian byte expansion of a natural number to a fixed width, as
`to_le_bytes` produces for the external address type (32 bytes for a
word-sized address). -/
def to_le_bytes (width n : Nat) : List Nat :=
  match width with
  | 0 => []
  | w + 1 => n % 256 :: to_le_bytes w (n / 256)

/-- `u64::from_le_bytes`: recombine little-endian bytes into a number. -/
def u64_from_le_bytes (bs : List Nat) : Nat :=
  bs.foldr (fun b acc => acc * 256 + b) 0

/-- The `Target::Memory` arm of `impl From<&operation::OperationContainer>
for RwMap` (lines 804-819): each memory operation becomes an `Rw::Memory`
record whose `memory_address` is
`u64::from_le_bytes(address.to_le_bytes()[..8])` — the first 8 little-endian
bytes of the external address. -/
def memory_ops_to_rws (ops : List MemoryOp) : List Rw :=
  ops.map fun op =>
    Rw.Memory op.rwc op.rw_is_write op.call_id
      (u64_from_le_bytes ((to_le_bytes 32 op.address).take 8)) op.value

/-- Two concrete containers holding the same two `Memory` records — which
share the full composite sort key (same counter 1, same call id, same
address) but differ in direction and byte — inserted in the two possible
orders. -/
def c2MapDupA : RwMap :=
  ⟨fun t => if t = Target.Memory then
    some [Rw.Memory 1 false 1 0 0, Rw.Memory 1 true 1 0 5] else none⟩

/-- The same records as `c2MapDupA`, inserted in the opposite order. -/
def c2MapDupB : RwMap :=
  ⟨fun t => if t = Target.Memory then
    some [Rw.Memory 1 true 1 0 5, Rw.Memory 1 false 1 0 0] else none⟩

/-- A concrete container with two `Memory` records with distinct counters. -/
def c2MapWa : RwMap :=
  ⟨fun t => if t = Target.Memory then
    some [Rw.Memory 2 true 1 0 5, Rw.Memory 1 false 1 0 0] else none⟩

/-- The same records as `c2MapWa`, inserted in the opposite order. -/
def c2MapWb : RwMap :=
  ⟨fun t => if t = Target.Memory then
    some [Rw.Memory 1 false 1 0 0, Rw.Memory 2 true 1 0 5] else none⟩

/-! ### Claim C5: the RLC digest is the Horner evaluation of the 14 values -/

/-- C5: for every row and every randomness `r` over any commutative ring, the
digest `rlc` equals the right-to-left fold `acc * r + value` seeded at zero,
i.e. the polynomial sum `values[0] + values[1]*r + ... + values[13]*r^13`
over the 14-element projection in source order; determinism across repeated
calls is definitional for a pure function. -/
theorem c5_rlc_horner {F : Type} [CommRing F] (row : RwRow F) (r : F) :
    row.rlc r =
      row.rw_counter + row.is_write * r + row.tag * r ^ 2 + row.id * r ^ 3 +
      row.address * r ^ 4 + row.field_tag * r ^ 5 +
      row.storage_key_lo * r ^ 6 + row.storage_key_hi * r ^ 7 +
      row.value_lo * r ^ 8 + row.value_hi * r ^ 9 +
      row.value_prev_lo * r ^ 10 + row.value_prev_hi * r ^ 11 +
      row.init_val_lo * r ^ 12 + row.init_val_hi * r ^ 13 := by
  simp only [RwRow.rlc, RwRow.values, List.reverse_cons, List.reverse_nil,
    List.nil_append, List.cons_append, List.foldl_cons, List.foldl_nil]
  ring

/-! ### Claim C6: encoding totality and the 128-bit limb split -/

/-- C6: `table_assignment` is total by construction; the 256-bit limb split
recombines exactly (`hi * 2^128 + lo = V` for every 256-bit `V`); and the
encoded `value_prev` limbs are zero for the `Stack`, `Memory`, `CallContext`,
`TxLog`, `TxReceipt` and `Start` variants (whose
`value_prev_assignment` is `None`, defaulting to zero). -/
theorem c6_encoding_total_and_limb_split :
    (∀ V : Nat, V < 2 ^ 256 → wordHi V * 2 ^ 128 + wordLo V = V) ∧
    (∀ r : Rw,
      (r.tag = Target.Stack ∨ r.tag = Target.Memory ∨
       r.tag = Target.CallContext ∨ r.tag = Target.TxLog ∨
       r.tag = Target.TxReceipt ∨ r.tag = Target.Start) →
      r.table_assignment.value_prev_lo = 0 ∧
      r.table_assignment.value_prev_hi = 0) := by
  constructor
  · intro V _
    simpa [wordHi, wordLo] using Nat.div_add_mod' V (2 ^ 128)
  · intro r h
    cases r <;>
      simp only [Rw.tag, reduceCtorEq, or_self, or_false, false_or] at h <;>
      simp [Rw.table_assignment, Rw.value_prev_assignment, wordLo, wordHi]

/-- Witness for C6 at the extreme inputs `V = 0`, `V = 2^128 - 1`,
`V = 2^256 - 1` and at a concrete `Stack` record. -/
theorem c6_encoding_total_and_limb_split_witness :
    ((0 : Nat) < 2 ^ 256 ∧ 2 ^ 128 - 1 < 2 ^ 256 ∧ 2 ^ 256 - 1 < 2 ^ 256) ∧
    (wordHi 0 * 2 ^ 128 + wordLo 0 = 0 ∧
     wordHi (2 ^ 128 - 1) * 2 ^ 128 + wordLo (2 ^ 128 - 1) = 2 ^ 128 - 1 ∧
     wordHi (2 ^ 256 - 1) * 2 ^ 128 + wordLo (2 ^ 256 - 1) = 2 ^ 256 - 1) ∧
    (Rw.Stack 1 false 1 1021 5).table_assignment.value_prev_lo = 0 ∧
    (Rw.Stack 1 false 1 1021 5).table_assignment.value_prev_hi = 0 :=
  ⟨⟨by norm_num, by norm_num, by norm_num⟩,
   ⟨c6_encoding_total_and_limb_split.1 0 (by norm_num),
    c6_encoding_total_and_limb_split.1 (2 ^ 128 - 1) (by norm_num),
    c6_encoding_total_and_limb_split.1 (2 ^ 256 - 1) (by norm_num)⟩,
   c6_encoding_total_and_limb_split.2 (Rw.Stack 1 false 1 1021 5)
     (Or.inl rfl)⟩

/-! ### Claim C10: memory addresses are truncated to their low 64 bits -/

/-- Taking the first `n` little-endian bytes of a wider expansion is the
`n`-byte expansion. -/
theorem to_le_bytes_take (n m a : Nat) :
    (to_le_bytes (n + m) a).take n = to_le_bytes n a := by
  induction n generalizing a with
  | zero => simp [to_le_bytes]
  | succ k ih =>
    have : k + 1 + m = (k + m) + 1 := by omega
    rw [this]
    simp only [to_le_bytes, List.take_succ_cons]
    rw [ih]

/-- Recombining the `n`-byte little-endian expansion reduces the input modulo
`256^n`. -/
theorem from_le_bytes_to_le_bytes (n a : Nat) :
    u64_from_le_bytes (to_le_bytes n a) = a % 256 ^ n := by
  induction n generalizing a with
  | zero => simp [to_le_bytes, u64_from_le_bytes, Nat.mod_one]
  | succ k ih =>
    simp only [to_le_bytes, u64_from_le_bytes, List.foldr_cons]
    have hrec : u64_from_le_bytes (to_le_bytes k (a / 256)) = a / 256 % 256 ^ k := ih (a / 256)
    simp only [u64_from_le_bytes] at hrec
    rw [hrec, pow_succ']
    rw [Nat.mod_mul]
    ring

/-- C10: building `Rw::Memory` records from external memory operations stores
exactly the low 64 bits of each operation's address (`address % 2^64`); the
8-byte little-endian slice silently discards all higher bits. -/
theorem c10_memory_address_truncated (ops : List MemoryOp) :
    memory_ops_to_rws ops =
      ops.map fun op =>
        Rw.Memory op.rwc op.rw_is_write op.call_id (op.address % 2 ^ 64) op.value := by
  unfold memory_ops_to_rws
  apply List.map_congr_left
  intro op _
  have h32 : (32 : Nat) = 8 + 24 := by norm_num
  rw [h32, to_le_bytes_take, from_le_bytes_to_le_bytes]
  norm_num

/-! ### Claim C3: padding correctness -/

/-- C3: `table_assignments_prepad rows 0` prepends exactly one `Start` row
with counter 1 (pad count 1); for `N` greater than the length of the
`Start`-stripped rows it prepends exactly `N - length` `Start` rows numbered
`1..=(N - length)` before the unchanged non-`Start` suffix, returning that
count. -/
theorem c3_prepad_correct (rows : List Rw) (N : Nat) :
    table_assignments_prepad rows 0 =
      some (Rw.Start 1 :: rows.dropWhile Rw.isStart, 1) ∧
    ((rows.dropWhile Rw.isStart).length < N →
      table_assignments_prepad rows N =
        some ((List.range' 1 (N - (rows.dropWhile Rw.isStart).length)).map Rw.Start ++
                rows.dropWhile Rw.isStart,
              N - (rows.dropWhile Rw.isStart).length)) := by
  constructor
  · simp [table_assignments_prepad, padding_len]
  · intro h
    have hpl : padding_len (rows.dropWhile Rw.isStart).length N =
        some (N - (rows.dropWhile Rw.isStart).length) := by
      unfold padding_len
      rw [if_pos h]
    simp [table_assignments_prepad, hpl]

/-- Witness for C3 at a concrete row list (one leading `Start` row, one
`Stack` row) and target length 4. -/
theorem c3_prepad_correct_witness :
    ([Rw.Start 7, Rw.Stack 3 true 1 0 5].dropWhile Rw.isStart).length < 4 ∧
    table_assignments_prepad [Rw.Start 7, Rw.Stack 3 true 1 0 5] 4 =
      some ((List.range' 1
              (4 - ([Rw.Start 7, Rw.Stack 3 true 1 0 5].dropWhile Rw.isStart).length)).map
                Rw.Start ++
              [Rw.Start 7, Rw.Stack 3 true 1 0 5].dropWhile Rw.isStart,
            4 - ([Rw.Start 7, Rw.Stack 3 true 1 0 5].dropWhile Rw.isStart).length) :=
  ⟨by decide,
   (c3_prepad_correct [Rw.Start 7, Rw.Stack 3 true 1 0 5] 4).2 (by decide)⟩

/-! ### Claim C4: padding overflow is fatal, valid targets never fail -/

/-- C4: `table_assignments_prepad` panics (embedded as `none`) exactly on a
target length that is positive yet at most the stripped row count; for target
0 (auto mode) or any target exceeding the stripped row count it succeeds. -/
theorem c4_prepad_overflow_fatal (rows : List Rw) (N : Nat) :
    (0 < N → N ≤ (rows.dropWhile Rw.isStart).length →
      table_assignments_prepad rows N = none) ∧
    (N = 0 ∨ (rows.dropWhile Rw.isStart).length < N →
      (table_assignments_prepad rows N).isSome = true) := by
  constructor
  · intro h0 hle
    have hpl : padding_len (rows.dropWhile Rw.isStart).length N = none := by
      unfold padding_len
      rw [if_neg (by omega), if_pos (by omega)]
    simp [table_assignments_prepad, hpl]
  · intro h
    rcases h with h | h
    · subst h
      simp [table_assignments_prepad, padding_len]
    · simp [table_assignments_prepad, padding_len, h]

/-- Witness for C4: one `Stack` row, target length 1 (positive, equal to the
stripped length) is fatal; target 0 succeeds. -/
theorem c4_prepad_overflow_fatal_witness :
    (0 < 1 ∧ 1 ≤ ([Rw.Stack 3 true 1 0 5].dropWhile Rw.isStart).length ∧
      table_assignments_prepad [Rw.Stack 3 true 1 0 5] 1 = none) ∧
    ((0 = 0 ∨ ([Rw.Stack 3 true 1 0 5].dropWhile Rw.isStart).length < 0) ∧
      (table_assignments_prepad [Rw.Stack 3 true 1 0 5] 0).isSome = true) :=
  ⟨⟨by decide, by decide,
    (c4_prepad_overflow_fatal [Rw.Stack 3 true 1 0 5] 1).1 (by decide) (by decide)⟩,
   ⟨Or.inl rfl,
    (c4_prepad_overflow_fatal [Rw.Stack 3 true 1 0 5] 0).2 (Or.inl rfl)⟩⟩

/-! ### Claim C7: counter continuity -/

/-- The enumerated assertion loop passes exactly when the list it walks is
the contiguous range starting one above the running index. -/
theorem countersOk_iff_range (cs : List Nat) :
    ∀ s : Nat, countersOk s cs = true ↔ cs = List.range' (s + 1) cs.length := by
  induction cs with
  | nil => intro s; simp [countersOk]
  | cons c cs ih =>
    intro s
    simp only [countersOk, Bool.and_eq_true, decide_eq_true_eq, List.length_cons,
      List.range'_succ, List.cons.injEq, ih (s + 1)]
    constructor
    · rintro ⟨⟨h1, h2⟩, h3⟩
      exact ⟨by omega, h3⟩
    · rintro ⟨h1, h2⟩
      exact ⟨⟨by omega, by omega⟩, h2⟩

/-- C7: `check_rw_counter_sanity` passes all its debug assertions exactly
when the non-`Start` counters are, as a multiset, the contiguous range
`1..=N` (no gaps, no duplicates, 1-based origin): sorted ascending and
enumerated from 0, every element then satisfies `idx = rw_counter - 1`
without underflow. -/
theorem c7_counter_continuity (m : RwMap) :
    m.check_rw_counter_sanity = true ↔
      m.nonStartCounters.Perm (List.range' 1 m.nonStartCounters.length) := by
  unfold RwMap.check_rw_counter_sanity
  rw [countersOk_iff_range]
  have hperm : (List.insertionSort (· ≤ ·) m.nonStartCounters).Perm
      m.nonStartCounters := List.perm_insertionSort _ _
  rw [hperm.length_eq]
  constructor
  · intro h
    exact h ▸ hperm.symm
  · intro h
    have hsort : (List.insertionSort (· ≤ ·) m.nonStartCounters).Sorted (· ≤ ·) :=
      List.sorted_insertionSort _ m.nonStartCounters
    have hrange : (List.range' 1 m.nonStartCounters.length).Sorted (· ≤ ·) :=
      (List.pairwise_lt_range' 1 m.nonStartCounters.length).imp
        (by intro a b hab; omega)
    exact List.eq_of_perm_of_sorted (hperm.trans h) hsort hrange

/-! ### Claim C8: lookup failure classes -/

/-- C8 counterexample: on a container whose `HashMap` has no entry for the
tag (e.g. the `Default` empty `RwMap`), indexing panics at
`self.0.get(&tag).unwrap()` — the `Option::unwrap`-on-`None` failure — and
not as the out-of-range access the claim asserts for a tag with no
entries. -/
theorem c8_lookup_counterexample :
    rwmap_index ⟨fun _ => none⟩ Target.Start 0 = Except.error LookupErr.unwrapNone ∧
    Except.error LookupErr.unwrapNone ≠
      (Except.error LookupErr.outOfRange : Except LookupErr Rw) := by
  constructor
  · rfl
  · intro h
    injection h with h2
    exact LookupErr.noConfusion h2

/-- C8 amended: when the tag has an entry in the map (as in every container
the trace builder produces, which inserts every tag), lookup succeeds exactly
when the group holds at least `idx + 1` records and otherwise fails as the
out-of-range access; when the tag key is absent, lookup fails at the
`unwrap` of the group (a distinct failure class); and lookup by an operation
reference carrying `(tag, idx)` behaves identically. -/
theorem c8_lookup_amended (m : RwMap) (tag : Target) (idx : Nat) :
    (∀ g, m.groups tag = some g →
      ((∃ r, rwmap_index m tag idx = Except.ok r) ↔ idx < g.length) ∧
      (g.length ≤ idx →
        rwmap_index m tag idx = Except.error LookupErr.outOfRange)) ∧
    (m.groups tag = none →
      rwmap_index m tag idx = Except.error LookupErr.unwrapNone) ∧
    (∀ r : OperationRef, rwmap_index_ref m r = rwmap_index m r.tag r.idx) := by
  refine ⟨?_, ?_, fun _ => rfl⟩
  · intro g hg
    cases hge : g[idx]? with
    | none =>
      have hlen : g.length ≤ idx := by
        simpa using List.getElem?_eq_none_iff.mp hge
      refine ⟨⟨?_, ?_⟩, ?_⟩
      · rintro ⟨r, hr⟩
        simp [rwmap_index, hg, hge] at hr
      · intro h
        omega
      · intro _
        simp [rwmap_index, hg, hge]
    | some r =>
      have hlen : idx < g.length := by
        exact (List.getElem?_eq_some_iff.mp hge).1
      refine ⟨⟨fun _ => hlen, ?_⟩, ?_⟩
      · intro _
        exact ⟨r, by simp [rwmap_index, hg, hge]⟩
      · intro h
        omega
  · intro hnone
    simp [rwmap_index, hnone]

/-- Witness for C8 amended at a one-record group, both a hit and an
out-of-range miss, plus an absent tag. -/
theorem c8_lookup_amended_witness :
    ((RwMap.mk fun t => if t = Target.Stack then some [Rw.Stack 1 false 1 0 5]
        else none).groups Target.Stack = some [Rw.Stack 1 false 1 0 5] ∧
      [Rw.Stack 1 false 1 0 5].length ≤ 3 ∧
      rwmap_index (RwMap.mk fun t => if t = Target.Stack then
          some [Rw.Stack 1 false 1 0 5] else none) Target.Stack 3 =
        Except.error LookupErr.outOfRange) ∧
    ((RwMap.mk fun t => if t = Target.Stack then some [Rw.Stack 1 false 1 0 5]
        else none).groups Target.Memory = none ∧
      rwmap_index (RwMap.mk fun t => if t = Target.Stack then
          some [Rw.Stack 1 false 1 0 5] else none) Target.Memory 0 =
        Except.error LookupErr.unwrapNone) :=
  ⟨⟨by decide, by decide,
    ((c8_lookup_amended (RwMap.mk fun t => if t = Target.Stack then
        some [Rw.Stack 1 false 1 0 5] else none) Target.Stack 3).1
      [Rw.Stack 1 false 1 0 5] (by decide)).2 (by decide)⟩,
   ⟨by decide,
    (c8_lookup_amended (RwMap.mk fun t => if t = Target.Stack then
        some [Rw.Stack 1 false 1 0 5] else none) Target.Memory 0).2.1
      (by decide)⟩⟩

/-! ### Claim C9: the first-access law scenario -/

/-- C9 counterexample: a trace whose canonical rows are a single non-write
record (value 8) on a key never written, with the oracle reporting 7 for the
key, yields zero violations — not the one violation the claim asserts —
because the pair loop starts at index 1 and a lone row at index 0 is never
examined. -/
theorem c9_first_access_counterexample :
    RwMap.check_value (fun _ => some 7)
        ⟨fun t => if t = Target.Stack then some [Rw.Stack 1 false 1 1021 8]
          else none⟩ = [] ∧
    (RwMap.check_value (fun _ => some 7)
        ⟨fun t => if t = Target.Stack then some [Rw.Stack 1 false 1 1021 8]
          else none⟩).length ≠ 1 := by
  constructor
  · decide
  · decide

/-- C9 amended: with the canonical rows being a `Start` row followed by the
single non-write record (so the record sits at pair index 1), the claimed
behaviour holds: value 7 (matching the oracle) gives zero violations, value
8 gives exactly the one first-access violation. -/
theorem c9_first_access_amended :
    RwMap.check_value (fun _ => some 7)
        ⟨fun t => if t = Target.Start then some [Rw.Start 1]
          else if t = Target.Stack then some [Rw.Stack 2 false 1 1021 7]
          else none⟩ = [] ∧
    RwMap.check_value (fun _ => some 7)
        ⟨fun t => if t = Target.Start then some [Rw.Start 1]
          else if t = Target.Stack then some [Rw.Stack 2 false 1 1021 8]
          else none⟩ =
      [(1, RwCheckErr.firstAccess, Rw.Stack 2 false 1 1021 8, Rw.Start 1)] := by
  constructor
  · decide
  · decide

/-! ### Claim C2: canonical order determinism -/

/-- Case analysis for one step of the lexicographic comparison. -/
theorem lexLe_cons_iff (x y : Nat) (xs ys : List Nat) :
    lexLe (x :: xs) (y :: ys) = true ↔ x < y ∨ (x = y ∧ lexLe xs ys = true) := by
  by_cases h1 : x < y
  · simp [lexLe, h1]
  · by_cases h2 : y < x
    · have hne : x ≠ y := by omega
      simp [lexLe, h1, h2, hne]
    · have hxy : x = y := by omega
      subst hxy
      simp [lexLe, h1, h2]

/-- The lexicographic comparison is total. -/
theorem lexLe_total : ∀ a b : List Nat, lexLe a b = true ∨ lexLe b a = true := by
  intro a
  induction a with
  | nil => intro b; exact Or.inl rfl
  | cons x xs ih =>
    intro b
    cases b with
    | nil => exact Or.inr rfl
    | cons y ys =>
      rcases Nat.lt_trichotomy x y with h | h | h
      · exact Or.inl ((lexLe_cons_iff x y xs ys).mpr (Or.inl h))
      · subst h
        rcases ih ys with h2 | h2
        · exact Or.inl ((lexLe_cons_iff x x xs ys).mpr (Or.inr ⟨rfl, h2⟩))
        · exact Or.inr ((lexLe_cons_iff x x ys xs).mpr (Or.inr ⟨rfl, h2⟩))
      · exact Or.inr ((lexLe_cons_iff y x ys xs).mpr (Or.inl h))

/-- The lexicographic comparison is transitive. -/
theorem lexLe_trans :
    ∀ a b c : List Nat, lexLe a b = true → lexLe b c = true → lexLe a c = true := by
  intro a
  induction a with
  | nil => intro b c _ _; rfl
  | cons x xs ih =>
    intro b c hab hbc
    cases b with
    | nil => simp [lexLe] at hab
    | cons y ys =>
      cases c with
      | nil => simp [lexLe] at hbc
      | cons z zs =>
        rw [lexLe_cons_iff] at hab hbc ⊢
        rcases hab with h1 | ⟨h1, h1r⟩ <;> rcases hbc with h2 | ⟨h2, h2r⟩
        · exact Or.inl (by omega)
        · exact Or.inl (by omega)
        · exact Or.inl (by omega)
        · exact Or.inr ⟨by omega, ih ys zs h1r h2r⟩

/-- The lexicographic comparison is antisymmetric. -/
theorem lexLe_antisymm :
    ∀ a b : List Nat, lexLe a b = true → lexLe b a = true → a = b := by
  intro a
  induction a with
  | nil =>
    intro b _ hba
    cases b with
    | nil => rfl
    | cons y ys => simp [lexLe] at hba
  | cons x xs ih =>
    intro b hab hba
    cases b with
    | nil => simp [lexLe] at hab
    | cons y ys =>
      rw [lexLe_cons_iff] at hab hba
      rcases hab with h1 | ⟨h1, h1r⟩
      · rcases hba with h2 | ⟨h2, h2r⟩
        · omega
        · omega
      · rcases hba with h2 | ⟨h2, h2r⟩
        · omega
        · subst h1
          rw [ih ys h1r h2r]

/-- A stable sort of two permuted inputs whose composite keys are pairwise
distinct produces the same output: both results are sorted permutations of
one multiset under an order that, on key-distinct records, is
antisymmetric. -/
theorem table_sort_eq_of_perm (l1 l2 : List Rw)
    (hp : l1.Perm l2)
    (hk : l1.Pairwise fun a b => a.sortKey ≠ b.sortKey) :
    List.insertionSort rwLe l1 = List.insertionSort rwLe l2 := by
  haveI : IsTotal Rw rwLe := ⟨fun a b => lexLe_total a.sortKey b.sortKey⟩
  haveI : IsTrans Rw rwLe := ⟨fun a b c => lexLe_trans a.sortKey b.sortKey c.sortKey⟩
  have hsymm : ∀ {a b : Rw}, a.sortKey ≠ b.sortKey → b.sortKey ≠ a.sortKey :=
    fun h => Ne.symm h
  have hp1 : (List.insertionSort rwLe l1).Perm l1 := List.perm_insertionSort _ _
  have hp2 : (List.insertionSort rwLe l2).Perm l2 := List.perm_insertionSort _ _
  have hps : (List.insertionSort rwLe l1).Perm (List.insertionSort rwLe l2) :=
    hp1.trans (hp.trans hp2.symm)
  have hs1 : (List.insertionSort rwLe l1).Sorted rwLe := List.sorted_insertionSort _ _
  have hs2 : (List.insertionSort rwLe l2).Sorted rwLe := List.sorted_insertionSort _ _
  have hk1 : (List.insertionSort rwLe l1).Pairwise
      (fun a b : Rw => a.sortKey ≠ b.sortKey) :=
    (hp1.pairwise_iff fun h => hsymm h).mpr hk
  have hk2 : (List.insertionSort rwLe l2).Pairwise
      (fun a b : Rw => a.sortKey ≠ b.sortKey) :=
    ((hp2.trans hp.symm).pairwise_iff fun h => hsymm h).mpr hk
  haveI : IsAntisymm Rw (fun a b : Rw => rwLe a b ∧ a.sortKey ≠ b.sortKey) :=
    ⟨fun a b h1 h2 => absurd (lexLe_antisymm _ _ h1.1 h2.1) h1.2⟩
  exact List.eq_of_perm_of_sorted hps (hs1.and hk1) (hs2.and hk2)

/-- C2 counterexample: two containers built from the same records in
different insertion orders whose canonical rows differ — the stable sort
preserves insertion order among records whose composite keys collide (here
two records share `rw_counter = 1`), so `table_assignments` is not
insertion-order independent in general. -/
theorem c2_canonical_rows_counterexample :
    (∀ t : Target,
      ((c2MapDupA.groups t).getD []).Perm ((c2MapDupB.groups t).getD [])) ∧
    c2MapDupA.table_assignments ≠ c2MapDupB.table_assignments := by
  constructor
  · decide
  · decide

/-- C2 amended: when the records' composite sort keys are pairwise distinct
(as the counter-continuity invariant guarantees, the key ending in
`rw_counter`), `table_assignments` is a pure function of the container's
contents: two containers whose groups hold the same records in any insertion
orders yield identical output, and that output is a permutation of the
flattened groups, sorted by the composite key. -/
theorem c2_canonical_rows_amended (m1 m2 : RwMap)
    (hgroups : ∀ t : Target, ((m1.groups t).getD []).Perm ((m2.groups t).getD []))
    (hkeys : m1.flat_rows.Pairwise fun a b => a.sortKey ≠ b.sortKey) :
    m1.table_assignments = m2.table_assignments ∧
    m1.table_assignments.Perm m1.flat_rows ∧
    m1.table_assignments.Sorted rwLe := by
  haveI : IsTotal Rw rwLe := ⟨fun a b => lexLe_total a.sortKey b.sortKey⟩
  haveI : IsTrans Rw rwLe := ⟨fun a b c => lexLe_trans a.sortKey b.sortKey c.sortKey⟩
  have hflat : m1.flat_rows.Perm m2.flat_rows := by
    have haux : ∀ ts : List Target,
        (ts.flatMap fun t => (m1.groups t).getD []).Perm
          (ts.flatMap fun t => (m2.groups t).getD []) := by
      intro ts
      induction ts with
      | nil => simp
      | cons t ts ih =>
        simp only [List.flatMap_cons]
        exact (hgroups t).append ih
    exact haux allTargets
  exact ⟨table_sort_eq_of_perm _ _ hflat hkeys,
    List.perm_insertionSort _ _, List.sorted_insertionSort _ _⟩

/-- Witness for C2 amended at the concrete key-distinct containers. -/
theorem c2_canonical_rows_amended_witness :
    ((∀ t : Target,
        ((c2MapWa.groups t).getD []).Perm ((c2MapWb.groups t).getD [])) ∧
      c2MapWa.flat_rows.Pairwise fun a b => a.sortKey ≠ b.sortKey) ∧
    (c2MapWa.table_assignments = c2MapWb.table_assignments ∧
      c2MapWa.table_assignments.Perm c2MapWa.flat_rows ∧
      c2MapWa.table_assignments.Sorted rwLe) :=
  ⟨⟨by decide, by decide⟩,
   c2_canonical_rows_amended c2MapWa c2MapWb (by decide) (by decide)⟩

/-! ### Claim C1: the consistency checker -/

/-- Membership in the violation list one loop iteration emits. -/
theorem checkEmit_mem_iff (oracle : Rw → Option Nat) (k idx : Nat)
    (msg : RwCheckErr) (x p row prev : Rw) :
    ((idx, msg, row, prev) ∈
      (if x.is_write then ([] : List (Nat × RwCheckErr × Rw × Rw))
       else
         if p.rwKey ≠ x.rwKey then
           if x.value_assignment ≠ (oracle x).getD 0 then
             [(k, RwCheckErr.firstAccess, x, p)]
           else []
         else
           if x.value_assignment ≠ p.value_assignment then
             [(k, RwCheckErr.nonFirstAccess, x, p)]
           else [])) ↔
      (idx = k ∧ row = x ∧ prev = p ∧ x.is_write = false ∧
       ((p.rwKey ≠ x.rwKey ∧ msg = RwCheckErr.firstAccess ∧
         x.value_assignment ≠ (oracle x).getD 0) ∨
        (p.rwKey = x.rwKey ∧ msg = RwCheckErr.nonFirstAccess ∧
         x.value_assignment ≠ p.value_assignment))) := by
  by_cases hw : x.is_write
  · simp [hw]
  · by_cases hk : p.rwKey = x.rwKey
    · by_cases hv : x.value_assignment = p.value_assignment
      · simp [hw, hk, hv]
      · simp [hw, hk, hv]
        tauto
    · by_cases hv : x.value_assignment = (oracle x).getD 0
      · simp [hw, hk, hv]
      · simp [hw, hk, hv]
        tauto

/-- Membership in the full violation list of the pair loop, walking list `l`
with running index `k` and previous row `p`. -/
theorem checkPairs_mem_iff (oracle : Rw → Option Nat) (idx : Nat)
    (msg : RwCheckErr) (row prev : Rw) :
    ∀ (l : List Rw) (k : Nat) (p : Rw),
    ((idx, msg, row, prev) ∈ checkPairs oracle k p l) ↔
      ∃ j, idx = k + j ∧ l[j]? = some row ∧ (p :: l)[j]? = some prev ∧
        row.is_write = false ∧
        ((prev.rwKey ≠ row.rwKey ∧ msg = RwCheckErr.firstAccess ∧
          row.value_assignment ≠ (oracle row).getD 0) ∨
         (prev.rwKey = row.rwKey ∧ msg = RwCheckErr.nonFirstAccess ∧
          row.value_assignment ≠ prev.value_assignment)) := by
  intro l
  induction l with
  | nil =>
    intro k p
    simp [checkPairs]
  | cons x xs ih =>
    intro k p
    simp only [checkPairs, List.mem_append]
    constructor
    · intro h
      rcases h with hmem | hmem
      · obtain ⟨h1, h2, h3, h4, h5⟩ :=
          (checkEmit_mem_iff oracle k idx msg x p row prev).mp hmem
        subst h2
        subst h3
        exact ⟨0, by omega, by simp, by simp, h4, h5⟩
      · obtain ⟨j, hj1, hj2, hj3, hj4, hj5⟩ := (ih (k + 1) x).mp hmem
        exact ⟨j + 1, by omega, by simpa using hj2, by simpa using hj3, hj4, hj5⟩
    · rintro ⟨j, hj1, hj2, hj3, hj4, hj5⟩
      cases j with
      | zero =>
        left
        have hx : x = row := by simpa using hj2
        have hp : p = prev := by simpa using hj3
        apply (checkEmit_mem_iff oracle k idx msg x p row prev).mpr
        refine ⟨by omega, hx.symm, hp.symm, ?_, ?_⟩
        · rw [hx]
          exact hj4
        · rw [hx, hp]
          exact hj5
      | succ j =>
        right
        exact (ih (k + 1) x).mpr
          ⟨j, by omega, by simpa using hj2, by simpa using hj3, hj4, hj5⟩

/-- C1: a tuple `(idx, reason, row, prev)` is reported by `check_value`
exactly when `row` is the canonical row at position `idx ≥ 1`, `prev` the row
at `idx - 1`, `row` is not a write, and: if the 5-tuple keys differ the
reason is the first-access reason and `row`'s value differs from the
oracle's initial value for the key, otherwise the reason is the
non-first-access reason and `row`'s value differs from `prev`'s; the checker
is a total function (it collects all violations and never aborts). -/
theorem c1_check_value_characterization (oracle : Rw → Option Nat) (m : RwMap)
    (idx : Nat) (msg : RwCheckErr) (row prev : Rw) :
    (idx, msg, row, prev) ∈ RwMap.check_value oracle m ↔
      (1 ≤ idx ∧
       (RwMap.table_assignments m)[idx]? = some row ∧
       (RwMap.table_assignments m)[idx - 1]? = some prev ∧
       row.is_write = false ∧
       ((prev.rwKey ≠ row.rwKey ∧ msg = RwCheckErr.firstAccess ∧
         row.value_assignment ≠ (oracle row).getD 0) ∨
        (prev.rwKey = row.rwKey ∧ msg = RwCheckErr.nonFirstAccess ∧
         row.value_assignment ≠ prev.value_assignment))) := by
  cases htab : RwMap.table_assignments m with
  | nil =>
    have hcv : RwMap.check_value oracle m = [] := by
      unfold RwMap.check_value
      rw [htab]
    rw [hcv]
    simp
  | cons first rest =>
    have hcv : RwMap.check_value oracle m = checkPairs oracle 1 first rest := by
      unfold RwMap.check_value
      rw [htab]
    rw [hcv]
    rw [checkPairs_mem_iff]
    constructor
    · rintro ⟨j, hj1, hj2, hj3, hj4, hj5⟩
      have hj : idx = j + 1 := by omega
      subst hj
      exact ⟨by omega, by simpa using hj2, by simpa using hj3, hj4, hj5⟩
    · rintro ⟨h1, h2, h3, h4, h5⟩
      refine ⟨idx - 1, by omega, ?_, ?_, h4, h5⟩
      · have hidx : idx = (idx - 1) + 1 := by omega
        rw [hidx] at h2
        simpa using h2
      · simpa using h3
